import Mathlib

/-!
Verification development for the Forget-Me-Not smart reminder application.

The development embeds, as executable Lean definitions:
* the AI-response extraction pipeline of `src/app/api/analyze-reminders/route.ts`
  (`extractSuggestionsFromText`): the greedy brace-span regex, JSON
  deserialization, the acceptance filter and the priority defaulting;
* the session/polling controller of `src/app/page.tsx`
  (`startTracking`, `stopTracking`, `fetchAppActivity` and their helpers),
  as explicit state passing over a `SessionState` record, with external
  query outcomes passed in as `Except` values;
* the app-switch log endpoint (`POST /api/logs`) and the settings endpoint
  (`GET /api/settings`) sanitizer.

Timestamps are modelled as naturals (ISO-8601 strings in the source are
order-isomorphic to the instants they denote); JSON numbers are modelled as
rationals.
-/

namespace ForgetMeNot

/-! ### JSON values

Model of the JavaScript runtime's JSON value universe, as produced by
`JSON.parse`. Numbers are rationals. -/

inductive Json where
  | null : Json
  | bool (b : Bool) : Json
  | num (q : ℚ) : Json
  | str (s : String) : Json
  | arr (elems : List Json) : Json
  | obj (fields : List (String × Json)) : Json
deriving Repr

/-- Field lookup on a parsed JSON object. JavaScript's `JSON.parse` keeps the
last occurrence of a duplicated key, so the fold keeps the last match. -/
def lookupField (fs : List (String × Json)) (key : String) : Option Json :=
  fs.foldl (fun acc kv => if kv.1 = key then some kv.2 else acc) none

/-! ### Character-level string helpers -/

/-- Boolean test that `p` begins the list `s` (character-exact). -/
def charsStartWith : List Char → List Char → Bool
  | [], _ => true
  | _ :: _, [] => false
  | p :: ps, c :: cs => p = c && charsStartWith ps cs

/-- Boolean test that `needle` occurs contiguously inside `hay`; this is the
model of JavaScript's `String.prototype.includes`. -/
def charsContain (needle : List Char) : List Char → Bool
  | [] => charsStartWith needle []
  | c :: cs => charsStartWith needle (c :: cs) || charsContain needle cs

/-- Model of `hay.includes(needle)` on strings. -/
def strContains (needle hay : String) : Bool :=
  charsContain needle.data hay.data

/-! ### The greedy brace-span regex

Model of `text.match(/\{[\s\S]*\}/)` in `extractSuggestionsFromText`
(src/app/api/analyze-reminders/route.ts line 19): the match, when it exists,
runs from the first opening brace of the text to the last closing brace, and
it exists exactly when some closing brace lies strictly after the first
opening brace. -/

/-- Suffix of `s` starting at the first opening brace, when there is one. -/
def dropToBrace : List Char → Option (List Char)
  | [] => none
  | c :: t => if c = '{' then some (c :: t) else dropToBrace t

/-- Shortest prefix of `s` that ends at the last closing brace of `s`, when
`s` has a closing brace at all. -/
def toLastClose : List Char → Option (List Char)
  | [] => none
  | c :: t =>
    match toLastClose t with
    | some r => some (c :: r)
    | none => if c = '}' then some [c] else none

/-- Model of the regex match `/\{[\s\S]*\}/` applied to `s`: the span from
the first opening brace to the last closing brace, provided that closing
brace lies strictly after the opening one. -/
def jsonSpan (s : List Char) : Option (List Char) :=
  match dropToBrace s with
  | none => none
  | some [] => none
  | some (c :: rest) => (toLastClose rest).map (fun r => c :: r)

/-! ### JSON deserialization

Executable model of the JavaScript runtime's `JSON.parse`, specialized to
the value universe above. The grammar follows JSON; a parse that does not
consume the whole input (up to trailing whitespace) fails, mirroring
`JSON.parse` raising on trailing garbage. -/

/-- Whitespace skipped between JSON tokens. -/
def skipWs : List Char → List Char
  | c :: t => if c = ' ' ∨ c = '\n' ∨ c = '\t' ∨ c = '\r' then skipWs t else c :: t
  | [] => []

/-- Value of a decimal digit character. -/
def digVal (c : Char) : Option ℕ :=
  if '0' ≤ c ∧ c ≤ '9' then some (c.toNat - '0'.toNat) else none

/-- Longest run of decimal digits at the front of the input. -/
def takeDigits : List Char → List ℕ × List Char
  | [] => ([], [])
  | c :: t =>
    match digVal c with
    | some d =>
      let (ds, rest) := takeDigits t
      (d :: ds, rest)
    | none => ([], c :: t)

/-- Natural number denoted by a digit run. -/
def digitsToNat (ds : List ℕ) : ℕ :=
  ds.foldl (fun acc d => 10 * acc + d) 0

/-- Value of a hexadecimal digit character. -/
def hexVal (c : Char) : Option ℕ :=
  if '0' ≤ c ∧ c ≤ '9' then some (c.toNat - '0'.toNat)
  else if 'a' ≤ c ∧ c ≤ 'f' then some (c.toNat - 'a'.toNat + 10)
  else if 'A' ≤ c ∧ c ≤ 'F' then some (c.toNat - 'A'.toNat + 10)
  else none

/-- Body of a JSON string literal, read after the opening quote; returns the
decoded characters and the input remaining after the closing quote. -/
def parseStrBody : ℕ → List Char → Option (List Char × List Char)
  | 0, _ => none
  | _ + 1, [] => none
  | _ + 1, '"' :: t => some ([], t)
  | fuel + 1, '\\' :: e :: t =>
    match e with
    | '"' => (parseStrBody fuel t).map (fun (cs, r) => ('"' :: cs, r))
    | '\\' => (parseStrBody fuel t).map (fun (cs, r) => ('\\' :: cs, r))
    | '/' => (parseStrBody fuel t).map (fun (cs, r) => ('/' :: cs, r))
    | 'b' => (parseStrBody fuel t).map (fun (cs, r) => ('\x08' :: cs, r))
    | 'f' => (parseStrBody fuel t).map (fun (cs, r) => ('\x0c' :: cs, r))
    | 'n' => (parseStrBody fuel t).map (fun (cs, r) => ('\n' :: cs, r))
    | 'r' => (parseStrBody fuel t).map (fun (cs, r) => ('\r' :: cs, r))
    | 't' => (parseStrBody fuel t).map (fun (cs, r) => ('\t' :: cs, r))
    | 'u' =>
      match t with
      | h1 :: h2 :: h3 :: h4 :: t' =>
        match hexVal h1, hexVal h2, hexVal h3, hexVal h4 with
        | some a, some b, some c, some d =>
          let n := ((a * 16 + b) * 16 + c) * 16 + d
          (parseStrBody fuel t').map (fun (cs, r) => (Char.ofNat n :: cs, r))
        | _, _, _, _ => none
      | _ => none
    | _ => none
  | fuel + 1, c :: t => (parseStrBody fuel t).map (fun (cs, r) => (c :: cs, r))

/-- JSON number: optional minus sign, integer part, optional fraction,
optional exponent; yields the exact rational it denotes. -/
def parseNum (s : List Char) : Option (ℚ × List Char) :=
  let (neg, s1) :=
    match s with
    | '-' :: t => (true, t)
    | _ => (false, s)
  let (ids, s2) := takeDigits s1
  if ids = [] then none
  else
    let intPart : ℚ := (digitsToNat ids : ℚ)
    let (fracPart, s3) :=
      match s2 with
      | '.' :: t =>
        let (fds, rest) := takeDigits t
        if fds = [] then ((0 : ℚ), s2)
        else ((digitsToNat fds : ℚ) / ((10 : ℚ) ^ fds.length), rest)
      | _ => ((0 : ℚ), s2)
    let hadBadFrac : Bool :=
      match s2 with
      | '.' :: t => (takeDigits t).1.isEmpty
      | _ => false
    if hadBadFrac then none
    else
      let (expOk, expVal, s4) :=
        match s3 with
        | 'e' :: t | 'E' :: t =>
          let (esign, t1) :=
            match t with
            | '+' :: u => ((1 : ℤ), u)
            | '-' :: u => ((-1 : ℤ), u)
            | _ => ((1 : ℤ), t)
          let (eds, rest) := takeDigits t1
          if eds = [] then (false, (0 : ℤ), s3)
          else (true, esign * (digitsToNat eds : ℤ), rest)
        | _ => (true, (0 : ℤ), s3)
      if expOk = false then none
      else
        let mag : ℚ := (intPart + fracPart) * (10 : ℚ) ^ expVal
        some (if neg then -mag else mag, s4)

mutual

/-- One JSON value at the front of the input (leading whitespace allowed),
returning the value and the remaining input. -/
def parseJsonVal : ℕ → List Char → Option (Json × List Char)
  | 0, _ => none
  | fuel + 1, s =>
    match skipWs s with
    | [] => none
    | 'n' :: 'u' :: 'l' :: 'l' :: t => some (.null, t)
    | 't' :: 'r' :: 'u' :: 'e' :: t => some (.bool true, t)
    | 'f' :: 'a' :: 'l' :: 's' :: 'e' :: t => some (.bool false, t)
    | '"' :: t =>
      (parseStrBody (t.length + 1) t).map (fun (cs, r) => (.str (String.mk cs), r))
    | '[' :: t =>
      (match skipWs t with
       | ']' :: r => some (.arr [], r)
       | _ => (parseJsonElems fuel t).map (fun (xs, r) => (.arr xs, r)))
    | '{' :: t =>
      (match skipWs t with
       | '}' :: r => some (.obj [], r)
       | _ => (parseJsonFields fuel t).map (fun (fs, r) => (.obj fs, r)))
    | rest => (parseNum rest).map (fun (q, r) => (.num q, r))

/-- Comma-separated JSON values followed by a closing bracket. -/
def parseJsonElems : ℕ → List Char → Option (List Json × List Char)
  | 0, _ => none
  | fuel + 1, s =>
    match parseJsonVal fuel s with
    | none => none
    | some (v, rest) =>
      match skipWs rest with
      | ',' :: t =>
        (parseJsonElems fuel t).map (fun (xs, r) => (v :: xs, r))
      | ']' :: t => some ([v], t)
      | _ => none

/-- Comma-separated string-keyed JSON fields followed by a closing brace. -/
def parseJsonFields : ℕ → List Char → Option (List (String × Json) × List Char)
  | 0, _ => none
  | fuel + 1, s =>
    match skipWs s with
    | '"' :: t =>
      match parseStrBody (t.length + 1) t with
      | none => none
      | some (kcs, rest) =>
        match skipWs rest with
        | ':' :: t2 =>
          match parseJsonVal fuel t2 with
          | none => none
          | some (v, rest2) =>
            match skipWs rest2 with
            | ',' :: t3 =>
              (parseJsonFields fuel t3).map
                (fun (fs, r) => ((String.mk kcs, v) :: fs, r))
            | '}' :: t3 => some ([(String.mk kcs, v)], t3)
            | _ => none
        | _ => none
    | _ => none

end

/-- Model of `JSON.parse` applied to the character span `s`: parses one JSON
value and requires only whitespace to remain. -/
def jsonParse (s : List Char) : Option Json :=
  match parseJsonVal (s.length + 1) s with
  | none => none
  | some (v, rest) => if skipWs rest = [] then some v else none

/-! ### Provider-shaped reminder records -/

/-- Modelled from the spec: the raw, provider-shaped `ReminderSuggestion`
record declared in the repository's `types/responses` module, whose
`AIResponse` member declaration is not among the provided sources. Spec §3:
`title`, `description`, `appName` strings, optional `windowName`,
`shouldRemind : bool`, optional `confidence` in `[0,1]`, optional
`priority`. -/
structure RawReminder where
  title : String
  description : String
  appName : String
  windowName : Option String
  shouldRemind : Bool
  confidence : Option ℚ
  priority : Option String
deriving Repr, DecidableEq

/-- Modelled from the spec: the deserialized shape of the model's JSON reply,
`\x7b reminders: [...], insights: [...] \x7d`, both members optional (the
route reads them as `parsed.reminders` and `parsed.insights` and defaults
each to the empty list when absent). -/
structure AIResponse where
  reminders : Option (List RawReminder)
  insights : Option (List String)
deriving Repr, DecidableEq

/-- Truthiness of a JSON value under JavaScript coercion. -/
def jsTruthy : Json → Bool
  | .null => false
  | .bool b => b
  | .num q => q ≠ 0
  | .str s => s ≠ ""
  | .arr _ => true
  | .obj _ => true

/-- Reads a JSON value as a string, failing on any other shape. -/
def asString : Json → Option String
  | .str s => some s
  | _ => none

/-- Decodes one element of the `reminders` array into a `RawReminder`.
Requires the string fields `title`, `description` and `appName` the declared
record type promises (a malformed element makes the route's surrounding
`try` block fail, which the caller turns into the empty response); the
optional fields decode leniently. -/
def decodeReminder (j : Json) : Option RawReminder :=
  match j with
  | .obj fs =>
    match lookupField fs "title", lookupField fs "description",
          lookupField fs "appName" with
    | some (.str t), some (.str d), some (.str a) =>
      some
        { title := t
          description := d
          appName := a
          windowName :=
            match lookupField fs "windowName" with
            | some (.str w) => some w
            | _ => none
          shouldRemind :=
            match lookupField fs "shouldRemind" with
            | some (.bool b) => b
            | _ => false
          confidence :=
            match lookupField fs "confidence" with
            | some (.num q) => some q
            | _ => none
          priority :=
            match lookupField fs "priority" with
            | some (.str p) => some p
            | _ => none }
    | _, _, _ => none
  | _ => none

/-- Decodes an optional list-valued member: an absent or falsy member acts as
the empty list (the route's `parsed.reminders || []` and
`parsed.insights?.filter(...)` defaults), an array decodes elementwise, and a
truthy non-array fails (in the route, calling `.filter` on it throws into
the surrounding `try`). -/
def decodeOptList {α : Type} (f : Json → Option α) :
    Option Json → Option (Option (List α))
  | none => some none
  | some (.arr xs) => (xs.mapM f).map some
  | some v => if jsTruthy v then none else some none

/-- Decodes the parsed JSON value into the `AIResponse` shape. A non-object
primitive yields an empty response (property access on it gives `undefined`,
defaulted to `[]`), except `null`, whose property access throws. -/
def decodeAIResponse (j : Json) : Option AIResponse :=
  match j with
  | .null => none
  | .obj fs => do
    let rems ← decodeOptList decodeReminder (lookupField fs "reminders")
    let ins ← decodeOptList asString (lookupField fs "insights")
    pure ⟨rems, ins⟩
  | _ => some ⟨none, none⟩

/-! ### The acceptance filter and the extraction pipeline -/

/-- Model of the JavaScript comparison `x >= threshold` where `x` may be
`undefined`: an absent operand coerces to `NaN`, and every comparison with
`NaN` is false. -/
def jsGeOpt (x : Option ℚ) (threshold : ℚ) : Bool :=
  match x with
  | some q => threshold ≤ q
  | none => false

/-- Acceptance filter of `extractSuggestionsFromText`
(src/app/api/analyze-reminders/route.ts lines 25-35): description longer
than 20 characters, distinct from the title and the app name, not containing
the literal text "undefined", and confidence at least 0.7 — where an absent
confidence compares as `undefined >= 0.7`, which is false. -/
def hasGoodDescription (r : RawReminder) : Bool :=
  decide (20 < r.description.length) &&
  r.description != r.title &&
  r.description != r.appName &&
  !(strContains "undefined" r.description) &&
  jsGeOpt r.confidence (7 / 10)

/-- Model of the JavaScript defaulting `v || fallback` on an optional
string: absent and empty both give the fallback. -/
def jsOrStr (v : Option String) (fallback : String) : String :=
  match v with
  | some s => if s = "" then fallback else s
  | none => fallback

/-- Priority defaulting applied to each accepted suggestion
(`priority: reminder.priority || 'medium'`). -/
def promoteSuggestion (r : RawReminder) : RawReminder :=
  { r with priority := some (jsOrStr r.priority "medium") }

/-- Result shape of the extraction, the `AnalysisResponse` of
`types/responses`: the accepted reminder suggestions and the general
insights. -/
structure AnalysisResponse where
  reminderSuggestions : List RawReminder
  generalInsights : List String
deriving Repr, DecidableEq

/-- Empty analysis response, returned on every failure path. -/
def emptyAnalysis : AnalysisResponse := ⟨[], []⟩

/-- Model of `extractSuggestionsFromText`
(src/app/api/analyze-reminders/route.ts lines 17-49): locate the greedy
brace span, deserialize it, decode the response shape, filter the reminders
through `hasGoodDescription` and default their priorities, and filter the
insights to those longer than 10 characters; every failure along the way
yields the empty response, as the function's `try`/`catch` does. -/
def extractSuggestionsFromText (text : String) : AnalysisResponse :=
  match jsonSpan text.data with
  | none => emptyAnalysis
  | some span =>
    match jsonParse span with
    | none => emptyAnalysis
    | some parsed =>
      match decodeAIResponse parsed with
      | none => emptyAnalysis
      | some resp =>
        { reminderSuggestions :=
            ((resp.reminders.getD []).filter hasGoodDescription).map
              promoteSuggestion
          generalInsights :=
            (resp.insights.getD []).filter (fun i => decide (10 < i.length)) }

/-! ### Session controller (src/app/page.tsx)

The controller's React state, refs and interval handles become fields of a
`SessionState` record; each handler becomes a state transformer. Outcomes of
the external Screenpipe query arrive as an `Except` argument (`.error` for a
thrown query). Interval handles are modelled by the ref flag together with a
count of live timers, so that a leaked double-scheduled interval would be
visible as a count above one. -/

/-- One raw item returned by the Screenpipe query (`results.data` element):
its `content` carries a timestamp and optional app name, window name and
text. -/
structure ItemContent where
  timestamp : ℕ
  appName : Option String
  windowName : Option String
  text : Option String
deriving Repr, DecidableEq

/-- Wrapper matching the query result element shape `\x7b content: ... \x7d`. -/
structure Item where
  content : ItemContent
deriving Repr, DecidableEq

/-- Normalized activity stored on the session queue (the `Activity` shape of
page.tsx). -/
structure Activity where
  content : ItemContent
deriving Repr, DecidableEq

/-- App-switch event derived from the raw items (the `AppSwitchEvent` shape
of page.tsx). -/
structure AppSwitchEvent where
  timestamp : ℕ
  appName : String
  windowName : String
deriving Repr, DecidableEq

/-- Status of a reminder item on the to-do list. -/
inductive ReminderStatus where
  | pending
  | completed
  | dismissed
deriving Repr, DecidableEq

/-- Persisted reminder item of the to-do list (the `ReminderItem` shape of
page.tsx). -/
structure ReminderItem where
  id : String
  title : String
  description : String
  createdAt : ℕ
  appContext : Option (String × String)
  status : ReminderStatus
deriving Repr, DecidableEq

/-- Controller state: the React state hooks, the refs and the two interval
timers of `SmartReminderPage`. -/
structure SessionState where
  isTracking : Bool
  isTrackingRef : Bool
  appHistory : List AppSwitchEvent
  lastCheckedTimestamp : Option ℕ
  todoList : List ReminderItem
  currentApp : Option String
  errorMessage : Option String
  sessionStartTime : Option ℕ
  activitiesQueue : List Activity
  fetchIntervalRef : Bool
  fetchTimerCount : ℕ
  analysisIntervalRef : Bool
  analysisTimerCount : ℕ
deriving Repr, DecidableEq

/-- Model of `checkScreenpipeStatus` (page.tsx lines 184-199): issues one
test query and returns `true` on success; every thrown query error is caught
inside the function and becomes `false`, so the probe itself never throws. -/
def checkScreenpipeStatus (probe : Except Unit (List Item)) : Bool :=
  match probe with
  | .ok _ => true
  | .error _ => false

/-- Result of `startTracking`: the new state together with the number of
connectivity probes the call performed. -/
structure StartResult where
  state : SessionState
  probeCalls : ℕ
deriving Repr, DecidableEq

/-- Model of `startTracking` (page.tsx lines 204-294). The in-memory flag
`isTrackingRef` is checked synchronously first; on a failed probe the flags
revert and the connectivity error is surfaced; on success the session state
is reset, `startedAt` is set to `now`, and each interval is scheduled only
when its ref is empty. The `catch` around the probe call in the source is
unreachable, because `checkScreenpipeStatus` converts every thrown error to
`false` internally. -/
def startTracking (probe : Except Unit (List Item)) (now : ℕ)
    (s : SessionState) : StartResult :=
  if s.isTrackingRef then ⟨s, 0⟩
  else
    let s1 := { s with isTracking := true, isTrackingRef := true }
    if checkScreenpipeStatus probe = false then
      ⟨{ s1 with
          isTracking := false
          isTrackingRef := false
          errorMessage := some "Cannot connect to Screenpipe." }, 1⟩
    else
      let s2 := { s1 with
        appHistory := []
        lastCheckedTimestamp := none
        sessionStartTime := some now
        activitiesQueue := [] }
      let s3 :=
        if s2.fetchIntervalRef then s2
        else { s2 with
          fetchIntervalRef := true
          fetchTimerCount := s2.fetchTimerCount + 1 }
      let s4 :=
        if s3.analysisIntervalRef then s3
        else { s3 with
          analysisIntervalRef := true
          analysisTimerCount := s3.analysisTimerCount + 1 }
      ⟨s4, 1⟩

/-- Model of `stopTracking` (page.tsx lines 296-325): no-op unless tracking;
otherwise clears the flags and the session start time and cancels whichever
intervals are scheduled. -/
def stopTracking (s : SessionState) : SessionState :=
  if s.isTrackingRef = false then s
  else
    let s1 := { s with
      isTracking := false
      isTrackingRef := false
      sessionStartTime := none }
    let s2 :=
      if s1.analysisIntervalRef then
        { s1 with
          analysisIntervalRef := false
          analysisTimerCount := s1.analysisTimerCount - 1 }
      else s1
    let s3 :=
      if s2.fetchIntervalRef then
        { s2 with
          fetchIntervalRef := false
          fetchTimerCount := s2.fetchTimerCount - 1 }
      else s2
    s3

/-- Model of the activity normalization map in `fetchAppActivity` (page.tsx
lines 358-365): a present field keeps its value, an absent `appName` or
`windowName` becomes the empty string, an absent `text` stays absent. -/
def toActivity (item : Item) : Activity :=
  { content :=
      { timestamp := item.content.timestamp
        appName := some (item.content.appName.getD "")
        windowName := some (item.content.windowName.getD "")
        text := item.content.text } }

/-- Comparator order used by the ascending timestamp sorts of page.tsx. -/
def itemLe (a b : Item) : Prop := a.content.timestamp ≤ b.content.timestamp

instance : DecidableRel itemLe := fun a b =>
  inferInstanceAs (Decidable (a.content.timestamp ≤ b.content.timestamp))

/-- Comparator order on app-switch events, ascending by timestamp. -/
def eventLe (a b : AppSwitchEvent) : Prop := a.timestamp ≤ b.timestamp

instance : DecidableRel eventLe := fun a b =>
  inferInstanceAs (Decidable (a.timestamp ≤ b.timestamp))

/-- Descending comparator used by `updateCurrentAppFromResults`. -/
def itemGe (a b : Item) : Prop := b.content.timestamp ≤ a.content.timestamp

instance : DecidableRel itemGe := fun a b =>
  inferInstanceAs (Decidable (b.content.timestamp ≤ a.content.timestamp))

/-- Model of `extractAppEvents` (page.tsx lines 433-486): sort the raw data
ascending by timestamp, then keep each item carrying a truthy app name as an
app-switch event, defaulting the window name to the empty string. -/
def extractAppEvents (data : List Item) : List AppSwitchEvent :=
  (data.insertionSort (fun a b => decide (itemLe a b))).filterMap fun item =>
    match item.content.appName with
    | some a =>
      if a = "" then none
      else
        some
          { timestamp := item.content.timestamp
            appName := a
            windowName := jsOrStr item.content.windowName "" }
    | none => none

/-- Model of `updateCurrentAppFromResults` (page.tsx lines 489-508): the
chronologically latest item's truthy app name, when it differs from the
current one, becomes the current app. -/
def updateCurrentApp (data : List Item) (cur : Option String) :
    Option String :=
  match (data.insertionSort (fun a b => decide (itemGe a b))).head? with
  | none => cur
  | some latest =>
    let appName := jsOrStr latest.content.appName ""
    if appName ≠ "" ∧ cur ≠ some appName then some appName else cur

/-- Error message surfaced when the activity query throws. -/
def fetchErrorMsg : String :=
  "Failed to connect to Screenpipe API. Is the service running?"

/-- Model of `fetchAppActivity` (page.tsx lines 327-395): skip unless
tracking with a session start time; on an empty result advance
`lastCheckedTimestamp` to `now`; on data, append the normalized activities
to the queue in the order returned, merge the sorted app-switch events into
the history, update the current app and advance `lastCheckedTimestamp`; a
thrown query lands in the `catch`, which only records the error message. -/
def fetchAppActivity (query : Except Unit (List Item)) (now : ℕ)
    (s : SessionState) : SessionState :=
  if s.isTrackingRef = false ∨ s.sessionStartTime = none then s
  else
    match query with
    | .error _ => { s with errorMessage := some fetchErrorMsg }
    | .ok data =>
      if data = [] then { s with lastCheckedTimestamp := some now }
      else
        let s1 := { s with
          activitiesQueue := s.activitiesQueue ++ data.map toActivity }
        let appEvents := extractAppEvents data
        let s2 :=
          if appEvents = [] then s1
          else
            { s1 with
              appHistory :=
                (s1.appHistory ++ appEvents).insertionSort
                  (fun a b => decide (eventLe a b)) }
        let s3 := { s2 with currentApp := updateCurrentApp data s2.currentApp }
        { s3 with lastCheckedTimestamp := some now }

/-- Chronological non-decrease of the session queue by sample timestamp, as
a decidable pairwise check. -/
def chronOrdered : List Activity → Bool
  | [] => true
  | [_] => true
  | a :: b :: t =>
    decide (a.content.timestamp ≤ b.content.timestamp) && chronOrdered (b :: t)

/-! ### App-switch log endpoint (POST of the logs route) -/

/-- Validation applied to the parsed body: the handler rejects any value
that is falsy or whose `timestamp` member is not a number or whose `app`
member is not a string; property access on a non-object primitive yields
`undefined`, so only an object can pass. -/
def validLogBody (j : Json) : Bool :=
  match j with
  | .obj fs =>
    (match lookupField fs "timestamp" with
     | some (.num _) => true
     | _ => false) &&
    (match lookupField fs "app" with
     | some (.str _) => true
     | _ => false)
  | _ => false

/-- Normalization of the accepted body: an absent or null `windowName`
becomes the empty string. -/
def normalizeWindowName (j : Json) : Json :=
  match j with
  | .obj fs =>
    match lookupField fs "windowName" with
    | some .null => .obj (fs ++ [("windowName", .str "")])
    | some _ => .obj fs
    | none => .obj (fs ++ [("windowName", .str "")])
  | _ => j

/-- Outcome of a POST to the logs route: the HTTP status and the stored log
list afterwards. -/
structure LogsPostResult where
  status : ℕ
  logs : List Json
deriving Repr

/-- Model of the logs route `POST` handler (src/unnamed/part_001 lines
9-68): `body` is the parsed request body, `none` standing for an empty or
unparseable body (rejected 400 before validation); an invalid structure is
rejected 400 without touching the store; an accepted log is appended and the
store is truncated to its most recent 1000 entries. -/
def logsPost (body : Option Json) (memoryLogs : List Json) : LogsPostResult :=
  match body with
  | none => ⟨400, memoryLogs⟩
  | some j =>
    if jsTruthy j = false ∨ validLogBody j = false then ⟨400, memoryLogs⟩
    else
      let appended := memoryLogs ++ [normalizeWindowName j]
      let kept :=
        if 1000 < appended.length then
          appended.drop (appended.length - 1000)
        else appended
      ⟨200, kept⟩

/-! ### Settings endpoint (GET of src/app/api/settings/route.ts) -/

/-- Stored Screenpipe settings as read by the GET handler, every member
possibly absent. -/
structure StoredSettings where
  aiProviderType : Option String
  aiModel : Option String
  aiUrl : Option String
  openaiApiKey : Option String
deriving Repr, DecidableEq

/-- Sanitized response body of the GET handler: provider, model and URL with
their defaults, plus only the existence bit of the API key. -/
structure SanitizedSettings where
  aiProviderType : String
  aiModel : String
  aiUrl : String
  openaiApiKeyExists : Bool
deriving Repr, DecidableEq

/-- Model of the sanitization in the settings `GET` handler
(src/app/api/settings/route.ts lines 34-40): `!!settings.openaiApiKey` is
true exactly for a present, non-empty key. -/
def sanitizeSettings (s : StoredSettings) : SanitizedSettings :=
  { aiProviderType := jsOrStr s.aiProviderType "ollama"
    aiModel := jsOrStr s.aiModel "llama2"
    aiUrl := jsOrStr s.aiUrl "http://localhost:11434/api/generate"
    openaiApiKeyExists :=
      match s.openaiApiKey with
      | some k => k ≠ ""
      | none => false }

/-! ## Theorems -/

/-- C10: the settings GET sanitizer never exposes the stored API key value:
two settings states differing only in the non-empty value of
`openaiApiKey` produce identical sanitized response bodies, which carry only
`aiProviderType`, `aiModel`, `aiUrl` and the boolean `openaiApiKeyExists`. -/
theorem sanitize_key_noninterference (s : StoredSettings) (k1 k2 : String)
    (h1 : k1 ≠ "") (h2 : k2 ≠ "") :
    sanitizeSettings { s with openaiApiKey := some k1 } =
      sanitizeSettings { s with openaiApiKey := some k2 } := by
  simp [sanitizeSettings, h1, h2]

/-- Witness for C10 at two concrete distinct keys. -/
theorem sanitize_key_noninterference_witness :
    sanitizeSettings
        { aiProviderType := some "openai", aiModel := some "gpt-4o"
          aiUrl := some "https://api.example.com", openaiApiKey := some "sk-first" } =
      sanitizeSettings
        { aiProviderType := some "openai", aiModel := some "gpt-4o"
          aiUrl := some "https://api.example.com", openaiApiKey := some "sk-second" } :=
  sanitize_key_noninterference
    { aiProviderType := some "openai", aiModel := some "gpt-4o"
      aiUrl := some "https://api.example.com", openaiApiKey := some "sk-first" }
    "sk-first" "sk-second" (by decide) (by decide)

/-- C9: the logs POST handler rejects with status 400 any parsed body whose
`timestamp` is not a number or whose `app` is not a string, leaving the
store untouched; and after every accepted POST the store holds at most 1000
entries, a suffix (the most recently appended part) of the appended list. -/
theorem logs_post_validated_and_bounded (body : Json) (logs : List Json) :
    (validLogBody body = false → logsPost (some body) logs = ⟨400, logs⟩) ∧
    (validLogBody body = true →
      (logsPost (some body) logs).status = 200 ∧
      (logsPost (some body) logs).logs.length ≤ 1000 ∧
      (logsPost (some body) logs).logs <:+ (logs ++ [normalizeWindowName body])) := by
  constructor
  · intro hbad
    simp [logsPost, hbad]
  · intro hgood
    have htruthy : jsTruthy body = true := by
      cases body <;> simp_all [validLogBody, jsTruthy]
    have hnotrej : ¬(jsTruthy body = false ∨ validLogBody body = false) := by
      simp [htruthy, hgood]
    have hred : logsPost (some body) logs =
        ⟨200,
          if 1000 < (logs ++ [normalizeWindowName body]).length then
            (logs ++ [normalizeWindowName body]).drop
              ((logs ++ [normalizeWindowName body]).length - 1000)
          else logs ++ [normalizeWindowName body]⟩ := by
      simp only [logsPost]
      rw [if_neg hnotrej]
    rw [hred]
    refine ⟨rfl, ?_, ?_⟩
    · show (if 1000 < (logs ++ [normalizeWindowName body]).length then
          (logs ++ [normalizeWindowName body]).drop
            ((logs ++ [normalizeWindowName body]).length - 1000)
        else logs ++ [normalizeWindowName body]).length ≤ 1000
      split
      · next h =>
        simp only [List.length_drop]
        omega
      · next h => omega
    · show (if 1000 < (logs ++ [normalizeWindowName body]).length then
          (logs ++ [normalizeWindowName body]).drop
            ((logs ++ [normalizeWindowName body]).length - 1000)
        else logs ++ [normalizeWindowName body]) <:+ (logs ++ [normalizeWindowName body])
      split
      · exact List.drop_suffix _ _
      · exact List.suffix_refl _

/-- Witness for C9: a valid body is accepted with a bounded store, and a
body with a string timestamp is rejected with status 400. -/
theorem logs_post_validated_and_bounded_witness :
    ((logsPost (some (.obj [("timestamp", .num 5), ("app", .str "Chrome")])) []).status = 200 ∧
     (logsPost (some (.obj [("timestamp", .num 5), ("app", .str "Chrome")])) []).logs.length ≤ 1000 ∧
     (logsPost (some (.obj [("timestamp", .num 5), ("app", .str "Chrome")])) []).logs <:+
       ([] ++ [normalizeWindowName (.obj [("timestamp", .num 5), ("app", .str "Chrome")])])) ∧
    logsPost (some (.obj [("timestamp", .str "late"), ("app", .str "Chrome")])) [] =
      ⟨400, []⟩ :=
  ⟨(logs_post_validated_and_bounded
      (.obj [("timestamp", .num 5), ("app", .str "Chrome")]) []).2 (by decide),
   (logs_post_validated_and_bounded
      (.obj [("timestamp", .str "late"), ("app", .str "Chrome")]) []).1 (by decide)⟩

/-- C8: while Tracking, `stopTracking` cancels both timers, clears the
session start time, and leaves the accumulated reminder list unchanged;
when already Idle it is a no-op. -/
theorem stop_cancels_timers_keeps_todos (s : SessionState)
    (htrack : s.isTrackingRef = true)
    (hfr : s.fetchIntervalRef = true) (hfc : s.fetchTimerCount = 1)
    (har : s.analysisIntervalRef = true) (hac : s.analysisTimerCount = 1) :
    (stopTracking s).isTrackingRef = false ∧
    (stopTracking s).isTracking = false ∧
    (stopTracking s).fetchIntervalRef = false ∧
    (stopTracking s).fetchTimerCount = 0 ∧
    (stopTracking s).analysisIntervalRef = false ∧
    (stopTracking s).analysisTimerCount = 0 ∧
    (stopTracking s).sessionStartTime = none ∧
    (stopTracking s).todoList = s.todoList ∧
    (∀ s' : SessionState, s'.isTrackingRef = false → stopTracking s' = s') := by
  refine ⟨?_, ?_, ?_, ?_, ?_, ?_, ?_, ?_, ?_⟩ <;>
    first
      | (intro s' h; simp [stopTracking, h])
      | simp [stopTracking, htrack, hfr, hfc, har, hac]

/-- Witness for C8 at a concrete Tracking state with one item on the list. -/
theorem stop_cancels_timers_keeps_todos_witness :
    (let s : SessionState :=
      { isTracking := true, isTrackingRef := true, appHistory := []
        lastCheckedTimestamp := some 4
        todoList := [{ id := "todo-1", title := "Reply", description := "Answer the thread"
                       createdAt := 3, appContext := none, status := .pending }]
        currentApp := some "Slack", errorMessage := none, sessionStartTime := some 1
        activitiesQueue := [], fetchIntervalRef := true, fetchTimerCount := 1
        analysisIntervalRef := true, analysisTimerCount := 1 }
     (stopTracking s).fetchTimerCount = 0 ∧ (stopTracking s).analysisTimerCount = 0 ∧
     (stopTracking s).sessionStartTime = none ∧ (stopTracking s).todoList = s.todoList) := by
  have h := stop_cancels_timers_keeps_todos
    { isTracking := true, isTrackingRef := true, appHistory := []
      lastCheckedTimestamp := some 4
      todoList := [{ id := "todo-1", title := "Reply", description := "Answer the thread"
                     createdAt := 3, appContext := none, status := .pending }]
      currentApp := some "Slack", errorMessage := none, sessionStartTime := some 1
      activitiesQueue := [], fetchIntervalRef := true, fetchTimerCount := 1
      analysisIntervalRef := true, analysisTimerCount := 1 }
    rfl rfl rfl rfl rfl
  exact ⟨h.2.2.2.1, h.2.2.2.2.2.1, h.2.2.2.2.2.2.1, h.2.2.2.2.2.2.2.1⟩

/-- C6: `startTracking` performs exactly one connectivity probe before
committing, and on every failing probe outcome (including a thrown
underlying query, which `checkScreenpipeStatus` converts to `false`) it
reverts to Idle — tracking flag false, no timers scheduled, no session start
time — and surfaces the connectivity error message. -/
theorem start_probe_failure_reverts (s : SessionState)
    (probe : Except Unit (List Item)) (now : ℕ)
    (hidle : s.isTrackingRef = false)
    (hfr : s.fetchIntervalRef = false) (hfc : s.fetchTimerCount = 0)
    (har : s.analysisIntervalRef = false) (hac : s.analysisTimerCount = 0)
    (hstart : s.sessionStartTime = none)
    (hprobe : checkScreenpipeStatus probe = false) :
    (startTracking probe now s).probeCalls = 1 ∧
    (startTracking probe now s).state.isTrackingRef = false ∧
    (startTracking probe now s).state.isTracking = false ∧
    (startTracking probe now s).state.fetchIntervalRef = false ∧
    (startTracking probe now s).state.fetchTimerCount = 0 ∧
    (startTracking probe now s).state.analysisIntervalRef = false ∧
    (startTracking probe now s).state.analysisTimerCount = 0 ∧
    (startTracking probe now s).state.sessionStartTime = none ∧
    (startTracking probe now s).state.errorMessage =
      some "Cannot connect to Screenpipe." := by
  refine ⟨?_, ?_, ?_, ?_, ?_, ?_, ?_, ?_, ?_⟩ <;>
    simp [startTracking, hidle, hprobe, hfr, hfc, har, hac, hstart]

/-- Witness for C6 at a concrete Idle state and a thrown probe. -/
theorem start_probe_failure_reverts_witness :
    (let s : SessionState :=
      { isTracking := false, isTrackingRef := false, appHistory := []
        lastCheckedTimestamp := none, todoList := [], currentApp := none
        errorMessage := none, sessionStartTime := none, activitiesQueue := []
        fetchIntervalRef := false, fetchTimerCount := 0
        analysisIntervalRef := false, analysisTimerCount := 0 }
     (startTracking (.error ()) 11 s).probeCalls = 1 ∧
     (startTracking (.error ()) 11 s).state.isTrackingRef = false ∧
     (startTracking (.error ()) 11 s).state.fetchTimerCount = 0 ∧
     (startTracking (.error ()) 11 s).state.errorMessage =
       some "Cannot connect to Screenpipe.") := by
  have h := start_probe_failure_reverts
    { isTracking := false, isTrackingRef := false, appHistory := []
      lastCheckedTimestamp := none, todoList := [], currentApp := none
      errorMessage := none, sessionStartTime := none, activitiesQueue := []
      fetchIntervalRef := false, fetchTimerCount := 0
      analysisIntervalRef := false, analysisTimerCount := 0 }
    (.error ()) 11 rfl rfl rfl rfl rfl rfl rfl
  exact ⟨h.1, h.2.1, h.2.2.2.2.1, h.2.2.2.2.2.2.2.2⟩

/-- C4: `startTracking` is idempotent under the in-memory flag: a call on an
already-Tracking state returns the state unchanged without probing, and two
calls in immediate succession from Idle (the first with a successful probe)
leave exactly one live fetch timer and one live analysis timer, the second
call changing nothing. -/
theorem start_idempotent (s : SessionState)
    (q1 q2 : Except Unit (List Item)) (t1 t2 : ℕ)
    (hidle : s.isTrackingRef = false)
    (hfr : s.fetchIntervalRef = false) (hfc : s.fetchTimerCount = 0)
    (har : s.analysisIntervalRef = false) (hac : s.analysisTimerCount = 0)
    (hq1 : checkScreenpipeStatus q1 = true) :
    (∀ (s' : SessionState) (q : Except Unit (List Item)) (n : ℕ),
        s'.isTrackingRef = true → startTracking q n s' = ⟨s', 0⟩) ∧
    (startTracking q2 t2 (startTracking q1 t1 s).state).state.fetchTimerCount = 1 ∧
    (startTracking q2 t2 (startTracking q1 t1 s).state).state.analysisTimerCount = 1 ∧
    (startTracking q2 t2 (startTracking q1 t1 s).state).state =
      (startTracking q1 t1 s).state := by
  have noop : ∀ (s' : SessionState) (q : Except Unit (List Item)) (n : ℕ),
      s'.isTrackingRef = true → startTracking q n s' = ⟨s', 0⟩ := by
    intro s' q n h
    simp [startTracking, h]
  have hfirst : (startTracking q1 t1 s).state.isTrackingRef = true ∧
      (startTracking q1 t1 s).state.fetchTimerCount = 1 ∧
      (startTracking q1 t1 s).state.analysisTimerCount = 1 := by
    refine ⟨?_, ?_, ?_⟩ <;> simp [startTracking, hidle, hq1, hfr, hfc, har, hac]
  have hsecond := noop (startTracking q1 t1 s).state q2 t2 hfirst.1
  refine ⟨noop, ?_, ?_, ?_⟩
  · rw [hsecond]; exact hfirst.2.1
  · rw [hsecond]; exact hfirst.2.2
  · rw [hsecond]

/-- Witness for C4 at a concrete Idle state and two immediate calls. -/
theorem start_idempotent_witness :
    (let s : SessionState :=
      { isTracking := false, isTrackingRef := false, appHistory := []
        lastCheckedTimestamp := none, todoList := [], currentApp := none
        errorMessage := none, sessionStartTime := none, activitiesQueue := []
        fetchIntervalRef := false, fetchTimerCount := 0
        analysisIntervalRef := false, analysisTimerCount := 0 }
     (startTracking (.ok []) 6 (startTracking (.ok []) 5 s).state).state.fetchTimerCount = 1 ∧
     (startTracking (.ok []) 6 (startTracking (.ok []) 5 s).state).state.analysisTimerCount = 1) := by
  have h := start_idempotent
    { isTracking := false, isTrackingRef := false, appHistory := []
      lastCheckedTimestamp := none, todoList := [], currentApp := none
      errorMessage := none, sessionStartTime := none, activitiesQueue := []
      fetchIntervalRef := false, fetchTimerCount := 0
      analysisIntervalRef := false, analysisTimerCount := 0 }
    (.ok []) (.ok []) 5 6 rfl rfl rfl rfl rfl rfl
  exact ⟨h.2.1, h.2.2.1⟩

/-- C3 counterexample: at a Tracking state, a poll whose query throws does
not advance `lastCheckedTimestamp` to the current time, contrary to the
claim that an error result still advances it. -/
theorem poll_error_no_advance_counterexample :
    (let s : SessionState :=
      { isTracking := true, isTrackingRef := true, appHistory := []
        lastCheckedTimestamp := none, todoList := [], currentApp := none
        errorMessage := none, sessionStartTime := some 1, activitiesQueue := []
        fetchIntervalRef := true, fetchTimerCount := 1
        analysisIntervalRef := true, analysisTimerCount := 1 }
     s.isTrackingRef = true ∧ s.sessionStartTime ≠ none ∧
     (fetchAppActivity (.error ()) 7 s).lastCheckedTimestamp ≠ some 7) := by
  decide

/-- C3 (amended): while Tracking, a poll returning an empty result advances
`lastCheckedTimestamp` to the current time and changes nothing else; a poll
whose query throws leaves `lastCheckedTimestamp` (and the Tracking flags,
timers and session start time) unchanged, recording only the error message;
neither failure raises or stops tracking. -/
theorem poll_failure_keeps_tracking (s : SessionState) (now : ℕ)
    (htrack : s.isTrackingRef = true) (hstart : s.sessionStartTime ≠ none) :
    fetchAppActivity (.ok []) now s = { s with lastCheckedTimestamp := some now } ∧
    fetchAppActivity (.error ()) now s =
      { s with errorMessage := some fetchErrorMsg } := by
  constructor <;> simp [fetchAppActivity, htrack, hstart]

/-- Witness for C3 (amended) at a concrete Tracking state. -/
theorem poll_failure_keeps_tracking_witness :
    (let s : SessionState :=
      { isTracking := true, isTrackingRef := true, appHistory := []
        lastCheckedTimestamp := some 2, todoList := [], currentApp := none
        errorMessage := none, sessionStartTime := some 1, activitiesQueue := []
        fetchIntervalRef := true, fetchTimerCount := 1
        analysisIntervalRef := true, analysisTimerCount := 1 }
     fetchAppActivity (.ok []) 7 s = { s with lastCheckedTimestamp := some 7 } ∧
     fetchAppActivity (.error ()) 7 s =
       { s with errorMessage := some fetchErrorMsg }) :=
  poll_failure_keeps_tracking
    { isTracking := true, isTrackingRef := true, appHistory := []
      lastCheckedTimestamp := some 2, todoList := [], currentApp := none
      errorMessage := none, sessionStartTime := some 1, activitiesQueue := []
      fetchIntervalRef := true, fetchTimerCount := 1
      analysisIntervalRef := true, analysisTimerCount := 1 }
    7 rfl (by decide)

/-- C1 counterexample: a batch returned out of order is appended to the
session activity queue as-is, leaving the queue chronologically out of
order, contrary to the claim that poll sorts each batch before appending. -/
theorem queue_unsorted_counterexample :
    (let s : SessionState :=
      { isTracking := true, isTrackingRef := true, appHistory := []
        lastCheckedTimestamp := none, todoList := [], currentApp := none
        errorMessage := none, sessionStartTime := some 1, activitiesQueue := []
        fetchIntervalRef := true, fetchTimerCount := 1
        analysisIntervalRef := true, analysisTimerCount := 1 }
     let data : List Item :=
       [{ content := { timestamp := 5, appName := some "AppA"
                       windowName := some "", text := none } },
        { content := { timestamp := 3, appName := some "AppB"
                       windowName := some "", text := none } }]
     chronOrdered ((fetchAppActivity (.ok data) 9 s).activitiesQueue) = false) := by
  decide

/-- C1 (amended): poll appends each returned batch to the session activity
queue in the source's order, without sorting it; only the derived app-switch
history is re-sorted by timestamp on append, so the queue is chronologically
ordered only when the source's batches already are. -/
theorem queue_appends_in_source_order (s : SessionState) (data : List Item)
    (now : ℕ) (htrack : s.isTrackingRef = true)
    (hstart : s.sessionStartTime ≠ none) :
    (fetchAppActivity (.ok data) now s).activitiesQueue =
      s.activitiesQueue ++ data.map toActivity := by
  by_cases hdata : data = []
  · subst hdata
    simp [fetchAppActivity, htrack, hstart]
  · simp only [fetchAppActivity, htrack, hstart]
    by_cases hev : extractAppEvents data = [] <;>
      simp [htrack, hstart, hdata, hev]

/-- Witness for C1 (amended) at a concrete Tracking state and an unsorted
two-sample batch. -/
theorem queue_appends_in_source_order_witness :
    (let s : SessionState :=
      { isTracking := true, isTrackingRef := true, appHistory := []
        lastCheckedTimestamp := none, todoList := [], currentApp := none
        errorMessage := none, sessionStartTime := some 1, activitiesQueue := []
        fetchIntervalRef := true, fetchTimerCount := 1
        analysisIntervalRef := true, analysisTimerCount := 1 }
     let data : List Item :=
       [{ content := { timestamp := 5, appName := some "AppA"
                       windowName := some "", text := none } },
        { content := { timestamp := 3, appName := some "AppB"
                       windowName := some "", text := none } }]
     (fetchAppActivity (.ok data) 9 s).activitiesQueue =
       s.activitiesQueue ++ data.map toActivity) :=
  queue_appends_in_source_order
    { isTracking := true, isTrackingRef := true, appHistory := []
      lastCheckedTimestamp := none, todoList := [], currentApp := none
      errorMessage := none, sessionStartTime := some 1, activitiesQueue := []
      fetchIntervalRef := true, fetchTimerCount := 1
      analysisIntervalRef := true, analysisTimerCount := 1 }
    [{ content := { timestamp := 5, appName := some "AppA"
                    windowName := some "", text := none } },
     { content := { timestamp := 3, appName := some "AppB"
                    windowName := some "", text := none } }]
    9 rfl (by decide)

/-- C2 counterexample: a suggestion failing none of the claimed rejection
conditions but carrying no confidence field is nevertheless rejected,
because `undefined >= 0.7` is false in the filter. -/
theorem acceptance_filter_counterexample :
    (let r : RawReminder :=
      { title := "Finish the review"
        description := "Return to the open code review and submit your comments."
        appName := "GitHub", windowName := none, shouldRemind := true
        confidence := none, priority := none }
     20 < r.description.length ∧ r.description ≠ r.title ∧
     r.description ≠ r.appName ∧ strContains "undefined" r.description = false ∧
     r.confidence = none ∧ hasGoodDescription r = false) := by
  decide

/-- C2 (amended): the acceptance filter accepts a raw suggestion exactly
when its description is longer than 20 characters, differs from its title
and its app name, does not contain the literal text "undefined", and its
confidence is present and at least 0.7 — a suggestion with no confidence
field is always rejected. -/
theorem acceptance_filter_characterization (r : RawReminder) :
    hasGoodDescription r = true ↔
      (20 < r.description.length ∧ r.description ≠ r.title ∧
       r.description ≠ r.appName ∧
       strContains "undefined" r.description = false ∧
       ∃ c, r.confidence = some c ∧ (7 : ℚ) / 10 ≤ c) := by
  cases hc : r.confidence with
  | none => simp [hasGoodDescription, jsGeOpt, hc]
  | some c => simp [hasGoodDescription, jsGeOpt, hc, and_assoc]

/-- C5: the extraction pipeline is a total function, and on every failure —
no brace span in the text, a span that does not deserialize, or a
deserialized value that does not decode to the response shape — it returns
the empty suggestion and insight lists instead of propagating an error. -/
theorem parse_never_raises (text : String) :
    (jsonSpan text.data = none →
      extractSuggestionsFromText text = emptyAnalysis) ∧
    (∀ span, jsonSpan text.data = some span → jsonParse span = none →
      extractSuggestionsFromText text = emptyAnalysis) ∧
    (∀ span v, jsonSpan text.data = some span → jsonParse span = some v →
      decodeAIResponse v = none →
      extractSuggestionsFromText text = emptyAnalysis) := by
  refine ⟨fun h => ?_, fun span h1 h2 => ?_, fun span v h1 h2 h3 => ?_⟩
  · simp [extractSuggestionsFromText, h]
  · simp [extractSuggestionsFromText, h1, h2]
  · simp [extractSuggestionsFromText, h1, h2, h3]

/-- Witness for C5 at a concrete spanless text. -/
theorem parse_never_raises_witness :
    extractSuggestionsFromText "The user briefly opened Slack." =
      emptyAnalysis :=
  (parse_never_raises "The user briefly opened Slack.").1 (by decide)

/-- Appending after a text with no opening brace does not change where the
greedy span starts. -/
theorem dropToBrace_append_of_none (s t : List Char)
    (h : dropToBrace s = none) : dropToBrace (s ++ t) = dropToBrace t := by
  induction s with
  | nil => simp
  | cons c cs ih =>
    by_cases hc : c = '{'
    · simp [dropToBrace, hc] at h
    · simp only [dropToBrace, hc, if_false, List.cons_append, if_neg] at h ⊢
      exact ih h

/-- The suffix found by `dropToBrace` is stable under appending text on the
right. -/
theorem dropToBrace_append_of_some (s t u : List Char)
    (h : dropToBrace s = some u) : dropToBrace (s ++ t) = some (u ++ t) := by
  induction s with
  | nil => simp [dropToBrace] at h
  | cons c cs ih =>
    by_cases hc : c = '{'
    · subst hc
      rw [show dropToBrace ('{' :: cs) = some ('{' :: cs) from by
        simp [dropToBrace]] at h
      injection h with h
      subst h
      simp [dropToBrace]
    · simp only [dropToBrace, hc, if_neg, List.cons_append] at h ⊢
      exact ih h

/-- The suffix found by `dropToBrace` starts at an opening brace. -/
theorem dropToBrace_head (s u : List Char) (h : dropToBrace s = some u) :
    ∃ t, u = '{' :: t := by
  induction s with
  | nil => simp [dropToBrace] at h
  | cons c cs ih =>
    by_cases hc : c = '{'
    · subst hc
      rw [show dropToBrace ('{' :: cs) = some ('{' :: cs) from by
        simp [dropToBrace]] at h
      injection h with h
      exact ⟨cs, h.symm⟩
    · simp only [dropToBrace, hc, if_neg] at h
      exact ih h

/-- Appending a tail with no closing brace does not move the last closing
brace. -/
theorem toLastClose_append_of_none (s t : List Char)
    (h : toLastClose t = none) : toLastClose (s ++ t) = toLastClose s := by
  induction s with
  | nil => simpa using h
  | cons c cs ih =>
    have ih' : toLastClose (cs.append t) = toLastClose cs := ih
    simp only [List.cons_append, toLastClose, ih', ih]

/-- Wrapping a text between a piece with no opening brace and a piece with
no brace of either kind leaves the greedy brace span unchanged. -/
theorem jsonSpan_wrapped (pre s post : List Char)
    (hpre : dropToBrace pre = none) (hpost : dropToBrace post = none)
    (hpostc : toLastClose post = none) :
    jsonSpan (pre ++ s ++ post) = jsonSpan s := by
  have h1 : pre ++ s ++ post = pre ++ (s ++ post) := by
    simp [List.append_assoc]
  rw [h1]
  unfold jsonSpan
  rw [dropToBrace_append_of_none pre (s ++ post) hpre]
  cases hds : dropToBrace s with
  | none => rw [dropToBrace_append_of_none s post hds, hpost]
  | some u =>
    obtain ⟨t, rfl⟩ := dropToBrace_head s u hds
    rw [dropToBrace_append_of_some s post _ hds]
    simp only [List.cons_append]
    rw [toLastClose_append_of_none t post hpostc]

/-- C7: wrapping a text in a Markdown code fence changes nothing: the
extraction of the fenced text equals the extraction of the unfenced text,
because the greedy brace span ignores the fence characters. -/
theorem fenced_parse_identical (j : String) :
    extractSuggestionsFromText ("```json\n" ++ j ++ "\n```") =
      extractSuggestionsFromText j := by
  have hdata : ("```json\n" ++ j ++ "\n```").data =
      "```json\n".data ++ j.data ++ "\n```".data := by
    cases j with
    | mk d => rfl
  unfold extractSuggestionsFromText
  rw [hdata, jsonSpan_wrapped "```json\n".data j.data "\n```".data
    (by decide) (by decide) (by decide)]

end ForgetMeNot
